import Mathlib

/-!
Verification of the result-caching layer of the orange-bio repository
(module obiKEGG/caching.py), against a shallow embedding in Lean.

Python strings are modelled as lists of characters, Python datetime and
date objects as records of numeric fields compared lexicographically
(as CPython compares them), and picklable Python values as an inductive
type.  Fallible Python code is embedded in the Except monad over an
explicit error type.
-/

namespace KeggCaching

/-- Model of a Python str: a list of characters. -/
abbrev PyStr := List Char

/-- Model of datetime.datetime (microseconds are not used by the code
under verification and are omitted; timezone handling is not modelled). -/
structure Datetime where
  year : Nat
  month : Nat
  day : Nat
  hour : Nat
  minute : Nat
  second : Nat
deriving DecidableEq, Repr

/-- Model of datetime.date (a bare date with no time of day). -/
structure Date where
  year : Nat
  month : Nat
  day : Nat
deriving DecidableEq, Repr

/-- A Python value that can sit in the mtime slot of a cache entry:
a datetime, a bare date, or any other object (which is neither). -/
inductive PyTime where
  | dt (d : Datetime)
  | date (d : Date)
  | other
deriving DecidableEq, Repr

/-- CPython compares datetime objects field by field, most significant
first; this is the strict order. -/
def dtLt (a b : Datetime) : Bool :=
  if a.year ≠ b.year then a.year < b.year
  else if a.month ≠ b.month then a.month < b.month
  else if a.day ≠ b.day then a.day < b.day
  else if a.hour ≠ b.hour then a.hour < b.hour
  else if a.minute ≠ b.minute then a.minute < b.minute
  else a.second < b.second

/-- Non-strict datetime comparison. -/
def dtLe (a b : Datetime) : Bool :=
  dtLt a b || a = b

/-- Python 2 orders None below every other object, so a comparison
(last_modified \x3c= mtime) with last_modified = None yields True.  The
left operand here is the possibly-None side. -/
def pyNoneLe (a : Option Datetime) (b : Datetime) : Bool :=
  match a with
  | none => true
  | some a => dtLe a b

/-- datetime(year, month, day, 1, 1, 1) as built by is_entry_valid
(caching.py lines 176 and 187) when it meets a bare date. -/
def dateToDatetime111 (d : Date) : Datetime :=
  ⟨d.year, d.month, d.day, 1, 1, 1⟩

/-- now.replace(hour=0, minute=0, second=0, microsecond=0): local
midnight of the current day (caching.py line 199). -/
def midnightOf (t : Datetime) : Datetime :=
  ⟨t.year, t.month, t.day, 0, 0, 0⟩

/-- Day count of a proleptic Gregorian civil date (valid for civil
years from 1 on, which covers every date the cache can store). -/
def daysFromCivil (y m d : Nat) : Nat :=
  let y2 := if m ≤ 2 then y - 1 else y
  let era := y2 / 400
  let yoe := y2 % 400
  let mp := (m + 9) % 12
  let doy := (153 * mp + 2) / 5 + d - 1
  let doe := yoe * 365 + yoe / 4 - yoe / 100 + doy
  era * 146097 + doe

/-- Inverse of daysFromCivil. -/
def civilFromDays (z : Nat) : Nat × Nat × Nat :=
  let era := z / 146097
  let doe := z % 146097
  let yoe := (doe - doe / 1460 + doe / 36524 - doe / 146096) / 365
  let y := yoe + era * 400
  let doy := doe - (365 * yoe + yoe / 4 - yoe / 100)
  let mp := (5 * doy + 2) / 153
  let d := doy - (153 * mp + 2) / 5 + 1
  let m := if mp < 10 then mp + 3 else mp - 9
  (if m ≤ 2 then y + 1 else y, m, d)

/-- datetime.now() - timedelta(7): the same time of day seven days
earlier (caching.py line 202). -/
def minus7days (t : Datetime) : Datetime :=
  let c := civilFromDays (daysFromCivil t.year t.month t.day - 7)
  ⟨c.1, c.2.1, c.2.2, t.hour, t.minute, t.second⟩

/-- datetime.fromtimestamp(0), the value of cached_wrapper.min_timestamp
(caching.py line 169).  The local-time offset of the epoch is not
modelled; the constant is the epoch itself. -/
def min_timestamp : Datetime := ⟨1970, 1, 1, 0, 0, 0⟩

/-- A picklable Python value: ints, strings, None, tuples and dicts.
This is the payload type stored in cache entries and passed as call
arguments. -/
inductive PyVal where
  | int (n : Int)
  | str (s : PyStr)
  | pyNone
  | tuple (xs : List PyVal)
  | dict (xs : List (PyVal × PyVal))

/-- Left brace character (written via its code point). -/
def lbrace : Char := Char.ofNat 123

/-- Right brace character (written via its code point). -/
def rbrace : Char := Char.ofNat 125

mutual

/-- Model of the Python repr of a value, as used by key_from_args.
String repr is simplified (quotes added, escaping not modelled); the
properties proved below depend only on the repr of tuples starting
with an opening parenthesis and on function names carrying no
parenthesis. -/
def pyReprVal : PyVal → PyStr
  | .int n => (toString n).data
  | .str s => '\'' :: s ++ ['\'']
  | .pyNone => ['N', 'o', 'n', 'e']
  | .tuple xs =>
      match xs with
      | [] => ['(', ')']
      | [v] => '(' :: pyReprVal v ++ [',', ')']
      | v :: w :: tl => '(' :: pyReprJoin (v :: w :: tl) ++ [')']
  | .dict xs => lbrace :: pyReprPairs xs ++ [rbrace]

/-- Comma-space separated repr of a list of values. -/
def pyReprJoin : List PyVal → PyStr
  | [] => []
  | [v] => pyReprVal v
  | v :: w :: tl => pyReprVal v ++ [',', ' '] ++ pyReprJoin (w :: tl)

/-- Comma-space separated repr of dict items. -/
def pyReprPairs : List (PyVal × PyVal) → PyStr
  | [] => []
  | [(k, v)] => pyReprVal k ++ [':', ' '] ++ pyReprVal v
  | (k, v) :: w :: tl =>
      pyReprVal k ++ [':', ' '] ++ pyReprVal v ++ [',', ' '] ++ pyReprPairs (w :: tl)

end

/-- Python exceptions raised by the code paths under verification. -/
inductive PyErr where
  | typeError
  | attributeError
  | keyError (k : PyStr)
  | exception (msg : PyStr)
  | unpicklingError
deriving DecidableEq, Repr

/-- cache_entry (caching.py lines 93-97): a stored value, the time it
was produced (mtime), and an optional expiry (always None in the
wrapper path). -/
structure cache_entry where
  value : PyVal
  mtime : PyTime
  expires : Option Datetime

/-- State of a key-value backend holding entries by reference, as the
storage interface contract of the wrapper requires (string key to
cache_entry). -/
abbrev StoreSt := List (PyStr × cache_entry)

/-- Row deletion: DELETE FROM cache WHERE key=? removes every row with
that key. -/
def storeErase (s : StoreSt) (k : PyStr) : StoreSt :=
  match s with
  | [] => []
  | kv :: tl => if kv.1 = k then storeErase tl k else kv :: storeErase tl k

/-- INSERT OR REPLACE: the new pair replaces any pair with the same
key. -/
def storeSet (s : StoreSt) (k : PyStr) (v : cache_entry) : StoreSt :=
  (k, v) :: storeErase s k

/-- Key lookup returning the stored entry, if any. -/
def storeLookup (s : StoreSt) (k : PyStr) : Option cache_entry :=
  match s with
  | [] => none
  | kv :: tl => if kv.1 = k then some kv.2 else storeLookup tl k

/-- store.keys(): the list of keys currently in the backend. -/
def storeKeys (s : StoreSt) : List PyStr :=
  s.map (fun kv => kv.1)

/-- Process-wide inputs of the invalidation check.  The policy value is
conf.params with key cache.invalidate.  Modelled from the spec: the
configuration store (the conf module) is not among the sources; per the
spec it supplies cache.invalidate as one of always, session, daily,
weekly, another value, or unset (none here).  sessionStart models the
module-level _SESSION_START marker (caching.py line 99) and now models
datetime.now() at check time. -/
structure Env where
  policy : Option String
  now : Datetime
  sessionStart : Datetime

/-- The host instance a cached method is bound to.  lastModified models
the instance attribute last_modified: none when the instance has no
such method (attribute lookup then raises AttributeError), some f when
it is a method returning a date-or-datetime-or-other value. -/
structure Host where
  lastModified : Option (List PyVal → PyTime)

/-- cached_wrapper.key_from_args (caching.py lines 118-120):
self.function.__name__ + repr(args). -/
def key_from_args (fname : PyStr) (args : List PyVal) : PyStr :=
  fname ++ pyReprVal (.tuple args)

/-- Python str.rstrip(chars): drop from the right end every character
contained in chars. -/
def pyRstrip (s : PyStr) (chars : PyStr) : PyStr :=
  (s.reverse.dropWhile (fun c => chars.contains c)).reverse

/-- Python str.startswith: pyStartsWith s p is true when p is an
initial segment of s. -/
def pyStartsWith : PyStr → PyStr → Bool
  | _, [] => true
  | [], _ :: _ => false
  | c :: s, d :: p => c = d && pyStartsWith s p

/-- The value a date-or-datetime last-modified signal would carry into
the comparison of is_entry_valid.  Both constructors exist because
isinstance(x, date) is true for datetime objects as well (datetime
subclasses date), so a datetime signal is also rebuilt from its
year, month and day only. -/
inductive DateSignal where
  | fromDt (d : Datetime)
  | fromDate (d : Date)
deriving DecidableEq, Repr

/-- cached_wrapper.last_modified_from_args (caching.py lines 126-129).
The source computes the key (unused), evaluates
self.instance.last_modified(args) when the instance is present, and
falls off the end of the function: the computed value is discarded and
the function returns None on every non-raising path.  The instance is
never None on this path (cached_method builds the wrapper only for a
bound instance), so the attribute lookup happens on every call: it
raises AttributeError when the host has no last_modified method. -/
def last_modified_from_args (host : Host) (args : List PyVal) :
    Except PyErr (Option DateSignal) :=
  match host.lastModified with
  | none => .error .attributeError
  | some f =>
      let _ := f args
      .ok none

/-- The tail of is_entry_valid from the floor check on (caching.py
lines 181-205), once entry.mtime has been normalized to the datetime
mtime.  The branch for a string-valued signal (line 189) is not
modelled: last_modified_from_args returns None on every non-raising
path, so only the None branch is reachable, and the date branch is kept
to document what the source would compute. -/
def is_entry_valid_from (env : Env) (host : Host) (mtime : Datetime)
    (args : List PyVal) : Except PyErr Bool :=
  if dtLt mtime min_timestamp then .ok false
  else
    match last_modified_from_args host args with
    | .error e => .error e
    | .ok sig =>
        match sig with
        | some (.fromDt d) =>
            .ok (pyNoneLe (some (dateToDatetime111 ⟨d.year, d.month, d.day⟩)) mtime)
        | some (.fromDate d) =>
            .ok (pyNoneLe (some (dateToDatetime111 d)) mtime)
        | none =>
            if env.policy = some "always" then .ok false
            else if env.policy = some "session" then
              .ok (pyNoneLe (some env.sessionStart) mtime)
            else if env.policy = some "daily" then
              .ok (pyNoneLe (some (midnightOf env.now)) mtime)
            else if env.policy = some "weekly" then
              .ok (pyNoneLe (some (minus7days env.now)) mtime)
            else
              .ok (pyNoneLe none mtime)

/-- cached_wrapper.is_entry_valid (caching.py lines 171-205).  A
datetime mtime is used as is; a bare date becomes
datetime(year, month, day, 1, 1, 1); any other value makes the entry
invalid at once. -/
def is_entry_valid (env : Env) (host : Host) (entry : cache_entry)
    (args : List PyVal) : Except PyErr Bool :=
  match entry.mtime with
  | .dt m => is_entry_valid_from env host m args
  | .date d => is_entry_valid_from env host (dateToDatetime111 d) args
  | .other => .ok false

/-- Outcome of one call through the wrapper: the returned value or the
propagated exception, the backend state when the call ends, and how
often the wrapped operation was invoked and the backend written. -/
structure CallResult where
  outcome : Except PyErr PyVal
  store : StoreSt
  calls : Nat
  writes : Nat

/-- cached_wrapper.__call__ (caching.py lines 149-165): look the key
up, validate a present entry, and on a miss invoke the wrapped
operation once and store its result stamped with datetime.now(). -/
def wrapperCall (env : Env) (host : Host) (fname : PyStr)
    (f : List PyVal → Except PyErr PyVal) (store : StoreSt)
    (args : List PyVal) : CallResult :=
  let key := key_from_args fname args
  match storeLookup store key with
  | none =>
      match f args with
      | .error e => ⟨.error e, store, 1, 0⟩
      | .ok v => ⟨.ok v, storeSet store key ⟨v, .dt env.now, none⟩, 1, 1⟩
  | some entry =>
      match is_entry_valid env host entry args with
      | .error e => ⟨.error e, store, 0, 0⟩
      | .ok true => ⟨.ok entry.value, store, 0, 0⟩
      | .ok false =>
          match f args with
          | .error e => ⟨.error e, store, 1, 0⟩
          | .ok v => ⟨.ok v, storeSet store key ⟨v, .dt env.now, none⟩, 1, 1⟩

/-- cached_wrapper.invalidate_all (caching.py lines 134-139): compute
key_from_args(()) stripped of trailing comma and closing-parenthesis
characters, then delete every key of the backend starting with it. -/
def invalidate_all (fname : PyStr) (store : StoreSt) : StoreSt :=
  let pfx := pyRstrip (key_from_args fname []) [',', ')']
  (storeKeys store).foldl
    (fun acc k => if pyStartsWith k pfx then storeErase acc k else acc) store

/-- The Python builtin hasattr requires exactly two arguments; calling
it with a single argument, as caching.py line 221 does, raises
TypeError before any attribute is inspected. -/
def pyHasattrOneArg (_ : String) : Except PyErr Bool :=
  .error .typeError

/-- Attribute state of a host instance as seen by
cached_method.get_cache_store. -/
structure HostAttrs where
  hasCacheStoreAttr : Bool

/-- What get_cache_store resolves to when it returns. -/
inductive CacheStoreRef where
  | hostProvided
  | instanceCachedStore
deriving DecidableEq, Repr

/-- cached_method.get_cache_store (caching.py lines 218-223): when the
instance exposes cache_store, return it; otherwise the source runs
(elif not hasattr("_cached_method_cache")), a one-argument hasattr
call, before attaching a DictStore and returning it. -/
def get_cache_store (inst : HostAttrs) : Except PyErr CacheStoreRef :=
  if inst.hasCacheStoreAttr then .ok .hostProvided
  else
    match pyHasattrOneArg "_cached_method_cache" with
    | .error e => .error e
    | .ok _ => .ok .instanceCachedStore

/-- Methods defined by class Store (caching.py lines 16-27). -/
def storeClassMethods : List String :=
  ["__init__", "open", "__enter__", "__exit__"]

/-- Methods defined by class DictStore itself (caching.py lines
85-90). -/
def dictStoreOwnMethods : List String :=
  ["__init__", "close"]

/-- Methods defined by UserDict.DictMixin in the Python 2 standard
library: only derived dictionary methods, built on top of the four
primitives (getitem, setitem, delitem, keys) that the mixing class
itself is required to provide. -/
def dictMixinMethods : List String :=
  ["__iter__", "has_key", "__contains__", "iteritems", "iterkeys",
   "itervalues", "values", "items", "clear", "setdefault", "pop",
   "popitem", "update", "get", "__repr__", "__cmp__", "__len__"]

/-- Method resolution over the bases of DictStore (DictStore, Store,
DictMixin, object; object contributes none of the mapping methods). -/
def dictStoreHasMethod (m : String) : Bool :=
  (dictStoreOwnMethods ++ storeClassMethods ++ dictMixinMethods).contains m

/-- store[key] = value on a DictStore: Python looks the special method
up on the type and raises TypeError when the class hierarchy defines no
setitem slot. -/
def dictStore_setitem (s : StoreSt) (k : PyStr) (v : cache_entry) :
    Except PyErr StoreSt :=
  if dictStoreHasMethod "__setitem__" then .ok (storeSet s k v)
  else .error .typeError

/-- store[key] on a DictStore: TypeError when no getitem slot is
defined anywhere in the hierarchy; a KeyError for an absent key could
only be raised by an existing getitem. -/
def dictStore_getitem (s : StoreSt) (k : PyStr) :
    Except PyErr cache_entry :=
  if dictStoreHasMethod "__getitem__" then
    match storeLookup s k with
    | some v => .ok v
    | none => .error (.keyError k)
  else .error .typeError

/-- The file system state clear_cache operates on.  Modelled from the
spec: cachePath is the configured cache.path of the configuration
store, keggDir is the compiled-in default cache directory (conf
module, not among the sources), realpath models os.path.realpath, and
files lists the file names in the configured directory. -/
structure FsEnv where
  cachePath : PyStr
  keggDir : PyStr
  realpath : PyStr → PyStr
  files : List PyStr

/-- Python str.endswith via the reversed lists. -/
def pyEndsWith (s suffixStr : PyStr) : Bool :=
  pyStartsWith s.reverse suffixStr.reverse

/-- A file name matched by one of the four glob patterns of clear_cache
(*.sqlite3, *.keg, *.xml, *.png) in the cache directory. -/
def clearCacheGlobMatches (f : PyStr) : Bool :=
  pyEndsWith f ('.' :: ['s', 'q', 'l', 'i', 't', 'e', '3']) ||
  pyEndsWith f ('.' :: ['k', 'e', 'g']) ||
  pyEndsWith f ('.' :: ['x', 'm', 'l']) ||
  pyEndsWith f ('.' :: ['p', 'n', 'g'])

/-- Message of the exception clear_cache raises for a non-default
path (the %r interpolation of the path is not modelled). -/
def nonDefaultCachePathMsg : PyStr :=
  "Non default cache path. Please remove the contents manually.".data

/-- clear_cache (caching.py lines 245-264): refuse with an Exception
when the real path of the configured directory differs from the real
path of the compiled-in default, otherwise remove every file matching
the four patterns.  The result pairs the raised-or-returned outcome
with the files remaining afterwards. -/
def clear_cache (e : FsEnv) : Except PyErr Unit × List PyStr :=
  if e.realpath e.cachePath ≠ e.realpath e.keggDir then
    (.error (.exception nonDefaultCachePathMsg), e.files)
  else
    (.ok (), e.files.filter (fun f => !clearCacheGlobMatches f))

/-- Structured serialization of a datetime into the token stream. -/
def encodeDt (d : Datetime) : List Nat :=
  [d.year, d.month, d.day, d.hour, d.minute, d.second]

/-- Decoder matching encodeDt. -/
def decodeDt : List Nat → Option (Datetime × List Nat)
  | y :: mo :: da :: h :: mi :: s :: rest => some (⟨y, mo, da, h, mi, s⟩, rest)
  | _ => none

/-- Structured serialization of the mtime slot, preserving whether the
stored object was a datetime, a bare date, or something else. -/
def encodeTime : PyTime → List Nat
  | .dt d => 0 :: encodeDt d
  | .date d => 1 :: [d.year, d.month, d.day]
  | .other => [2]

/-- Decoder matching encodeTime. -/
def decodeTime : List Nat → Option (PyTime × List Nat)
  | 0 :: rest =>
      match decodeDt rest with
      | some (d, r) => some (.dt d, r)
      | none => none
  | 1 :: y :: mo :: da :: rest => some (.date ⟨y, mo, da⟩, rest)
  | 2 :: rest => some (.other, rest)
  | _ => none

/-- Structured serialization of the optional expiry slot. -/
def encodeOptDt : Option Datetime → List Nat
  | none => [0]
  | some d => 1 :: encodeDt d

/-- Decoder matching encodeOptDt. -/
def decodeOptDt : List Nat → Option (Option Datetime × List Nat)
  | 0 :: rest => some (none, rest)
  | 1 :: rest =>
      match decodeDt rest with
      | some (d, r) => some (some d, r)
      | none => none
  | _ => none

mutual

/-- Structured serialization of a value, the model of pickle.dumps on
the payload: a tagged token stream from which the value is recovered
exactly, nesting included. -/
def encodeVal : PyVal → List Nat
  | .int n => [0, if n < 0 then 1 else 0, (if n < 0 then -n else n).toNat]
  | .str s => 1 :: s.length :: s.map Char.toNat
  | .pyNone => [2]
  | .tuple xs => 3 :: xs.length :: encodeValList xs
  | .dict xs => 4 :: xs.length :: encodeValPairs xs

/-- Concatenated serialization of tuple elements. -/
def encodeValList : List PyVal → List Nat
  | [] => []
  | v :: tl => encodeVal v ++ encodeValList tl

/-- Concatenated serialization of dict items. -/
def encodeValPairs : List (PyVal × PyVal) → List Nat
  | [] => []
  | (k, v) :: tl => encodeVal k ++ encodeVal v ++ encodeValPairs tl

end

/-- Read back a counted run of characters. -/
def takeChars : Nat → List Nat → Option (PyStr × List Nat)
  | 0, rest => some ([], rest)
  | _ + 1, [] => none
  | n + 1, c :: rest =>
      match takeChars n rest with
      | some (cs, r) => some (Char.ofNat c :: cs, r)
      | none => none

mutual

/-- Decoder matching encodeVal.  The fuel bounds the nesting depth the
decoder will follow; any fuel at least the length of the encoded stream
suffices. -/
def decodeVal : Nat → List Nat → Option (PyVal × List Nat)
  | 0, _ => none
  | fuel + 1, toks =>
      match toks with
      | 0 :: s :: m :: rest =>
          some (.int (if s = 1 then -(m : Int) else (m : Int)), rest)
      | 1 :: n :: rest =>
          match takeChars n rest with
          | some (cs, r) => some (.str cs, r)
          | none => none
      | 2 :: rest => some (.pyNone, rest)
      | 3 :: n :: rest =>
          match decodeValList fuel n rest with
          | some (xs, r) => some (.tuple xs, r)
          | none => none
      | 4 :: n :: rest =>
          match decodeValPairs fuel n rest with
          | some (xs, r) => some (.dict xs, r)
          | none => none
      | _ => none
termination_by fuel _ => (fuel, 0, 0)

/-- Decoder for a counted run of tuple elements. -/
def decodeValList : Nat → Nat → List Nat → Option (List PyVal × List Nat)
  | _, 0, rest => some ([], rest)
  | fuel, n + 1, rest =>
      match decodeVal fuel rest with
      | none => none
      | some (v, r1) =>
          match decodeValList fuel n r1 with
          | some (tl, r2) => some (v :: tl, r2)
          | none => none
termination_by fuel n _ => (fuel, 1, n)

/-- Decoder for a counted run of dict items. -/
def decodeValPairs : Nat → Nat → List Nat → Option (List (PyVal × PyVal) × List Nat)
  | _, 0, rest => some ([], rest)
  | fuel, n + 1, rest =>
      match decodeVal fuel rest with
      | none => none
      | some (k, r1) =>
          match decodeVal fuel r1 with
          | none => none
          | some (v, r2) =>
              match decodeValPairs fuel n r2 with
              | some (tl, r3) => some ((k, v) :: tl, r3)
              | none => none
termination_by fuel n _ => (fuel, 1, n)

end

/-- Model of pickle.dumps applied to a cache_entry by
Sqlite3Store.__setitem__ (caching.py line 60): a structured
serialization of all three slots. -/
def pickleDumpsEntry (e : cache_entry) : List Nat :=
  encodeTime e.mtime ++ encodeOptDt e.expires ++ encodeVal e.value

/-- Model of pickle.loads applied by Sqlite3Store.__getitem__
(caching.py line 57). -/
def pickleLoadsEntry (l : List Nat) : Option cache_entry :=
  match decodeTime l with
  | none => none
  | some (t, r1) =>
      match decodeOptDt r1 with
      | none => none
      | some (ex, r2) =>
          match decodeVal r2.length r2 with
          | some (v, _) => some ⟨v, t, ex⟩
          | none => none

/-- Rows of the cache table of a Sqlite3Store: key and serialized
value. -/
abbrev SqlRows := List (PyStr × List Nat)

/-- Sqlite3Store.__setitem__ (caching.py lines 59-65): serialize the
entry and INSERT OR REPLACE it under the key. -/
def sqlite3_setitem (rows : SqlRows) (k : PyStr) (e : cache_entry) : SqlRows :=
  (k, pickleDumpsEntry e) :: rows.filter (fun kv => kv.1 ≠ k)

/-- Sqlite3Store.__getitem__ (caching.py lines 46-57): SELECT the row
by key; no row raises KeyError, otherwise the blob is deserialized. -/
def sqlite3_getitem (rows : SqlRows) (k : PyStr) : Except PyErr cache_entry :=
  match rows.find? (fun kv => kv.1 = k) with
  | none => .error (.keyError k)
  | some kv =>
      match pickleLoadsEntry kv.2 with
      | some e => .ok e
      | none => .error .unpicklingError

lemma takeChars_rt (cs : PyStr) (r : List Nat) :
    takeChars cs.length (cs.map Char.toNat ++ r) = some (cs, r) := by
  induction cs with
  | nil => simp [takeChars]
  | cons c tl ih => simp [takeChars, ih, Char.ofNat_toNat]

lemma decodeValList_encode (f : Nat)
    (hdv : ∀ v r, (encodeVal v).length ≤ f →
      decodeVal f (encodeVal v ++ r) = some (v, r)) :
    ∀ (xs : List PyVal) (r : List Nat), (encodeValList xs).length ≤ f →
      decodeValList f xs.length (encodeValList xs ++ r) = some (xs, r) := by
  intro xs
  induction xs with
  | nil => intro r h; simp [encodeValList, decodeValList]
  | cons v tl ih =>
      intro r h
      rw [encodeValList] at h
      rw [List.length_append] at h
      rw [encodeValList, List.length_cons, List.append_assoc]
      rw [decodeValList]
      rw [hdv v (encodeValList tl ++ r) (by omega)]
      simp [ih r (by omega)]

lemma decodeValPairs_encode (f : Nat)
    (hdv : ∀ v r, (encodeVal v).length ≤ f →
      decodeVal f (encodeVal v ++ r) = some (v, r)) :
    ∀ (xs : List (PyVal × PyVal)) (r : List Nat),
      (encodeValPairs xs).length ≤ f →
      decodeValPairs f xs.length (encodeValPairs xs ++ r) = some (xs, r) := by
  intro xs
  induction xs with
  | nil => intro r h; simp [encodeValPairs, decodeValPairs]
  | cons kv tl ih =>
      obtain ⟨k, v⟩ := kv
      intro r h
      rw [encodeValPairs] at h
      rw [List.length_append, List.length_append] at h
      rw [encodeValPairs, List.length_cons, List.append_assoc, List.append_assoc]
      rw [decodeValPairs]
      rw [hdv k (encodeVal v ++ (encodeValPairs tl ++ r)) (by omega)]
      simp [hdv v (encodeValPairs tl ++ r) (by omega), ih r (by omega)]

lemma decodeVal_encodeVal :
    ∀ (f : Nat) (v : PyVal) (r : List Nat), (encodeVal v).length ≤ f →
      decodeVal f (encodeVal v ++ r) = some (v, r) := by
  intro f
  induction f with
  | zero =>
      intro v r h
      exfalso
      cases v <;> simp [encodeVal] at h
  | succ f ih =>
      intro v r h
      cases v with
      | int n =>
          by_cases hn : n < 0 <;>
            simp [encodeVal, decodeVal, hn] <;> omega
      | str s =>
          simp only [encodeVal, List.cons_append, List.append_assoc]
          rw [decodeVal]
          simp [takeChars_rt]
      | pyNone => simp [encodeVal, decodeVal]
      | tuple xs =>
          rw [encodeVal] at h
          simp only [encodeVal, List.cons_append]
          rw [decodeVal]
          have hlen : (encodeValList xs).length ≤ f := by
            rw [List.length_cons, List.length_cons] at h; omega
          simp [decodeValList_encode f ih xs r hlen]
      | dict xs =>
          rw [encodeVal] at h
          simp only [encodeVal, List.cons_append]
          rw [decodeVal]
          have hlen : (encodeValPairs xs).length ≤ f := by
            rw [List.length_cons, List.length_cons] at h; omega
          simp [decodeValPairs_encode f ih xs r hlen]

lemma decodeTime_encode (t : PyTime) (r : List Nat) :
    decodeTime (encodeTime t ++ r) = some (t, r) := by
  cases t <;> simp [encodeTime, decodeTime, encodeDt, decodeDt]

lemma decodeOptDt_encode (x : Option Datetime) (r : List Nat) :
    decodeOptDt (encodeOptDt x ++ r) = some (x, r) := by
  cases x <;> simp [encodeOptDt, decodeOptDt, encodeDt, decodeDt]

lemma pickle_roundtrip (e : cache_entry) :
    pickleLoadsEntry (pickleDumpsEntry e) = some e := by
  obtain ⟨v, t, ex⟩ := e
  have h := decodeVal_encodeVal (encodeVal v).length v [] (le_refl _)
  rw [List.append_nil] at h
  simp [pickleDumpsEntry, pickleLoadsEntry, List.append_assoc,
    decodeTime_encode, decodeOptDt_encode, h]

/-- Claim C9: storing an entry in the persistent backend and retrieving
it by the same key yields the entry back: the payload (nested mappings
included) is equal to the original and the recorded mtime is preserved
exactly, type included. -/
theorem sqlite3_store_roundtrip (rows : SqlRows) (k : PyStr) (e : cache_entry) :
    sqlite3_getitem (sqlite3_setitem rows k e) k = .ok e := by
  rw [sqlite3_setitem, sqlite3_getitem]
  rw [List.find?_cons_of_pos _ (by simp)]
  simp [pickle_roundtrip]

lemma storeLookup_erase (s : StoreSt) (k k0 : PyStr) :
    storeLookup (storeErase s k) k0 = if k0 = k then none else storeLookup s k0 := by
  induction s with
  | nil => simp [storeErase, storeLookup]
  | cons kv tl ih =>
      rw [storeErase]
      by_cases h1 : kv.1 = k
      · rw [if_pos h1, ih]
        by_cases h2 : k0 = k
        · rw [if_pos h2, if_pos h2]
        · rw [if_neg h2, if_neg h2]
          conv_rhs => rw [storeLookup]
          have h3 : ¬kv.1 = k0 := by rw [h1]; intro hh; exact h2 hh.symm
          rw [if_neg h3]
      · rw [if_neg h1, storeLookup, ih]
        by_cases h3 : kv.1 = k0
        · rw [if_pos h3]
          have h2 : ¬k0 = k := by rw [← h3]; exact fun hh => h1 hh
          rw [if_neg h2]
          conv_rhs => rw [storeLookup]
          rw [if_pos h3]
        · rw [if_neg h3]
          by_cases h2 : k0 = k
          · rw [if_pos h2, if_pos h2]
          · rw [if_neg h2, if_neg h2]
            conv_rhs => rw [storeLookup]
            rw [if_neg h3]

lemma storeLookup_not_mem (s : StoreSt) (k0 : PyStr)
    (h : k0 ∉ storeKeys s) : storeLookup s k0 = none := by
  induction s with
  | nil => rfl
  | cons kv tl ih =>
      rw [storeKeys, List.map_cons, List.mem_cons] at h
      push_neg at h
      have h3 : ¬kv.1 = k0 := fun hh => h.1 hh.symm
      rw [storeLookup]
      simp only [h3, if_false]
      exact ih (by rw [storeKeys]; exact h.2)

lemma foldErase_lookup (P : PyStr → Bool) (ks : List PyStr) :
    ∀ (s : StoreSt) (k0 : PyStr),
      storeLookup (ks.foldl (fun acc k => if P k then storeErase acc k else acc) s) k0
        = if P k0 = true ∧ k0 ∈ ks then none else storeLookup s k0 := by
  induction ks with
  | nil => intro s k0; simp
  | cons k ks ih =>
      intro s k0
      rw [List.foldl_cons, ih]
      by_cases hp : P k0 = true
      · by_cases hk : k0 = k
        · subst hk
          simp [hp, storeLookup_erase]
        · by_cases hpk : P k = true
          · simp [hp, hk, hpk, storeLookup_erase]
          · simp [hp, hk, hpk]
      · by_cases hpk : P k = true
        · by_cases hk : k0 = k
          · subst hk; exact absurd hpk hp
          · simp [hp, hpk, storeLookup_erase, hk]
        · simp [hp, hpk]

lemma pyStartsWith_append (p t : PyStr) : pyStartsWith (p ++ t) p = true := by
  induction p with
  | nil => cases t <;> rfl
  | cons c p ih => simp [pyStartsWith, ih]

/-- A key built from a name and an opening parenthesis starts with the
invalidation marker of that same name. -/
lemma pyStartsWith_marker_self (a t : PyStr) :
    pyStartsWith (a ++ '(' :: t) (a ++ ['(']) = true := by
  induction a with
  | nil => simp [pyStartsWith]
  | cons c a ih => simp [pyStartsWith, ih]

/-- Two distinct parenthesis-free names stay distinguishable once the
opening parenthesis of the argument repr follows them: no key of one
operation starts with the invalidation marker of the other. -/
lemma pyStartsWith_marker_ne :
    ∀ (a b : PyStr) (t : PyStr), '(' ∉ a → '(' ∉ b → a ≠ b →
      pyStartsWith (b ++ '(' :: t) (a ++ ['(']) = false := by
  intro a
  induction a with
  | nil =>
      intro b t _ hb hne
      cases b with
      | nil => exact absurd rfl hne
      | cons c b =>
          have hc : ¬(c = '(') := fun hh => hb (by rw [hh]; exact List.mem_cons_self _ _)
          simp [pyStartsWith, hc]
  | cons c a ih =>
      intro b t ha hb hne
      have hca : ¬(c = '(') := fun hh => ha (by rw [hh]; exact List.mem_cons_self _ _)
      cases b with
      | nil =>
          have : ¬(('(' : Char) = c) := fun hh => hca hh.symm
          simp [pyStartsWith, this]
      | cons d b =>
          by_cases hdc : d = c
          · subst hdc
            have ha2 : '(' ∉ a := fun hh => ha (List.mem_cons_of_mem _ hh)
            have hb2 : '(' ∉ b := fun hh => hb (List.mem_cons_of_mem _ hh)
            have hne2 : a ≠ b := fun hh => hne (by rw [hh])
            simp [pyStartsWith, ih b t ha2 hb2 hne2]
          · simp [pyStartsWith, hdc]

/-- Every key of an operation extends the operation name by an opening
parenthesis: the repr of a tuple starts with one. -/
lemma key_from_args_shape (fname : PyStr) (args : List PyVal) :
    ∃ t, key_from_args fname args = fname ++ '(' :: t := by
  cases args with
  | nil => exact ⟨[')'], rfl⟩
  | cons v tl =>
      cases tl with
      | nil => exact ⟨pyReprVal v ++ [',', ')'], by simp [key_from_args, pyReprVal]⟩
      | cons w tl =>
          exact ⟨pyReprJoin (v :: w :: tl) ++ [')'], by simp [key_from_args, pyReprVal]⟩

/-- key_from_args(()) stripped of trailing comma and parenthesis
characters is the operation name followed by the opening parenthesis,
for any function name. -/
lemma pyRstrip_key_empty (fname : PyStr) :
    pyRstrip (key_from_args fname []) [',', ')'] = fname ++ ['('] := by
  have h1 : key_from_args fname [] = fname ++ ['(', ')'] := rfl
  rw [h1, pyRstrip, List.reverse_append]
  simp [List.dropWhile]

lemma invalidate_all_lookup (fname : PyStr) (store : StoreSt) (k0 : PyStr) :
    storeLookup (invalidate_all fname store) k0
      = if pyStartsWith k0 (fname ++ ['(']) = true then none
        else storeLookup store k0 := by
  rw [invalidate_all, pyRstrip_key_empty]
  rw [foldErase_lookup]
  by_cases hp : pyStartsWith k0 (fname ++ ['(']) = true
  · by_cases hm : k0 ∈ storeKeys store
    · simp [hp, hm]
    · simp [hp, hm, storeLookup_not_mem store k0 hm]
  · simp [hp]

/-- Claim C7: invalidate_all on the wrapper of operation f deletes
exactly the entries whose keys carry the operation-identity marker of f
(its name followed by the opening parenthesis), for every argument
tuple, and leaves every entry of a differently named operation g (and
any other unrelated key) untouched. -/
theorem invalidate_all_exact (fname gname : PyStr) (store : StoreSt)
    (hf : '(' ∉ fname) (hg : '(' ∉ gname) (hne : fname ≠ gname) :
    (∀ args, storeLookup (invalidate_all fname store) (key_from_args fname args) = none)
    ∧ (∀ args, storeLookup (invalidate_all fname store) (key_from_args gname args)
        = storeLookup store (key_from_args gname args))
    ∧ (∀ k, pyStartsWith k (fname ++ ['(']) = true →
        storeLookup (invalidate_all fname store) k = none)
    ∧ (∀ k, pyStartsWith k (fname ++ ['(']) = false →
        storeLookup (invalidate_all fname store) k = storeLookup store k) := by
  refine ⟨?_, ?_, ?_, ?_⟩
  · intro args
    obtain ⟨t, ht⟩ := key_from_args_shape fname args
    rw [invalidate_all_lookup, ht]
    simp [pyStartsWith_marker_self]
  · intro args
    obtain ⟨t, ht⟩ := key_from_args_shape gname args
    rw [invalidate_all_lookup, ht]
    simp [pyStartsWith_marker_ne fname gname t hf hg hne]
  · intro k hk
    rw [invalidate_all_lookup]
    simp [hk]
  · intro k hk
    rw [invalidate_all_lookup]
    simp [hk]

/-- Witness for claim C7: a backend holding entries for f(1), f(2) and
g(1); invalidating all of f removes both f entries and leaves the g
entry in place. -/
theorem invalidate_all_exact_witness :
    ('(' ∉ (['f'] : PyStr)) ∧ ('(' ∉ (['g'] : PyStr)) ∧ (['f'] : PyStr) ≠ ['g'] ∧
    (storeLookup
        (invalidate_all ['f']
          [(key_from_args ['f'] [.int 1], ⟨.int 10, .other, none⟩),
           (key_from_args ['f'] [.int 2], ⟨.int 20, .other, none⟩),
           (key_from_args ['g'] [.int 1], ⟨.int 30, .other, none⟩)])
        (key_from_args ['f'] [.int 1]) = none)
    ∧ (storeLookup
        (invalidate_all ['f']
          [(key_from_args ['f'] [.int 1], ⟨.int 10, .other, none⟩),
           (key_from_args ['f'] [.int 2], ⟨.int 20, .other, none⟩),
           (key_from_args ['g'] [.int 1], ⟨.int 30, .other, none⟩)])
        (key_from_args ['g'] [.int 1])
      = storeLookup
          [(key_from_args ['f'] [.int 1], ⟨.int 10, .other, none⟩),
           (key_from_args ['f'] [.int 2], ⟨.int 20, .other, none⟩),
           (key_from_args ['g'] [.int 1], ⟨.int 30, .other, none⟩)]
          (key_from_args ['g'] [.int 1])) := by
  refine ⟨by decide, by decide, by decide, ?_, ?_⟩
  · exact (invalidate_all_exact ['f'] ['g'] _ (by decide) (by decide) (by decide)).1 [.int 1]
  · exact (invalidate_all_exact ['f'] ['g'] _ (by decide) (by decide) (by decide)).2.1 [.int 1]

/-- Claim C5: through the wrapper, a miss (key absent, or present entry
rejected by the validity check) invokes the wrapped operation exactly
once, writes exactly one entry stamped with the current time, and
returns the fresh value; a hit (present entry accepted) invokes it zero
times, writes nothing, and returns the stored value. -/
theorem wrapper_call_effects (env : Env) (host : Host) (fname : PyStr)
    (f : List PyVal → Except PyErr PyVal) (store : StoreSt)
    (args : List PyVal) (v : PyVal) (hf : f args = .ok v) :
    (storeLookup store (key_from_args fname args) = none →
      wrapperCall env host fname f store args =
        ⟨.ok v,
         storeSet store (key_from_args fname args) ⟨v, .dt env.now, none⟩, 1, 1⟩)
    ∧ (∀ e, storeLookup store (key_from_args fname args) = some e →
        is_entry_valid env host e args = .ok false →
        wrapperCall env host fname f store args =
          ⟨.ok v,
           storeSet store (key_from_args fname args) ⟨v, .dt env.now, none⟩, 1, 1⟩)
    ∧ (∀ e, storeLookup store (key_from_args fname args) = some e →
        is_entry_valid env host e args = .ok true →
        wrapperCall env host fname f store args = ⟨.ok e.value, store, 0, 0⟩) := by
  refine ⟨?_, ?_, ?_⟩
  · intro h
    simp [wrapperCall, h, hf]
  · intro e he hv
    simp [wrapperCall, he, hv, hf]
  · intro e he hv
    simp [wrapperCall, he, hv]

/-- Witness for claim C5: on an empty backend a call misses, invokes
the operation once, and stores its value stamped with now. -/
theorem wrapper_call_effects_witness :
    ((fun _ : List PyVal => (.ok (.int 7) : Except PyErr PyVal)) [] = .ok (.int 7))
    ∧ wrapperCall ⟨none, ⟨2020, 1, 1, 0, 0, 0⟩, ⟨2020, 1, 1, 0, 0, 0⟩⟩
        ⟨some (fun _ => .other)⟩ ['f'] (fun _ => .ok (.int 7)) [] []
      = ⟨.ok (.int 7),
         storeSet [] (key_from_args ['f'] []) ⟨.int 7, .dt ⟨2020, 1, 1, 0, 0, 0⟩, none⟩,
         1, 1⟩ :=
  ⟨rfl,
   (wrapper_call_effects ⟨none, ⟨2020, 1, 1, 0, 0, 0⟩, ⟨2020, 1, 1, 0, 0, 0⟩⟩
      ⟨some (fun _ => .other)⟩ ['f'] (fun _ => .ok (.int 7)) [] [] (.int 7) rfl).1 rfl⟩

/-- Claim C10: when the wrapped operation raises on a miss, the
exception propagates, nothing is written, and the backend is exactly as
before the call. -/
theorem wrapper_call_error_no_write (env : Env) (host : Host) (fname : PyStr)
    (f : List PyVal → Except PyErr PyVal) (store : StoreSt)
    (args : List PyVal) (ex : PyErr) (hf : f args = .error ex) :
    (storeLookup store (key_from_args fname args) = none →
      wrapperCall env host fname f store args = ⟨.error ex, store, 1, 0⟩)
    ∧ (∀ e, storeLookup store (key_from_args fname args) = some e →
        is_entry_valid env host e args = .ok false →
        wrapperCall env host fname f store args = ⟨.error ex, store, 1, 0⟩) := by
  refine ⟨?_, ?_⟩
  · intro h
    simp [wrapperCall, h, hf]
  · intro e he hv
    simp [wrapperCall, he, hv, hf]

/-- Witness for claim C10: an operation that raises on an empty backend
leaves the backend empty and performs no write. -/
theorem wrapper_call_error_no_write_witness :
    ((fun _ : List PyVal => (.error .typeError : Except PyErr PyVal)) [] = .error .typeError)
    ∧ wrapperCall ⟨none, ⟨2020, 1, 1, 0, 0, 0⟩, ⟨2020, 1, 1, 0, 0, 0⟩⟩
        ⟨some (fun _ => .other)⟩ ['f'] (fun _ => .error .typeError) [] []
      = ⟨.error .typeError, [], 1, 0⟩ :=
  ⟨rfl,
   (wrapper_call_error_no_write ⟨none, ⟨2020, 1, 1, 0, 0, 0⟩, ⟨2020, 1, 1, 0, 0, 0⟩⟩
      ⟨some (fun _ => .other)⟩ ['f'] (fun _ => .error .typeError) [] [] .typeError rfl).1 rfl⟩

/-- Claim C1: contrary to the claim, the wrapper never sees the host
last-modified signal: last_modified_from_args evaluates the host method
and discards its value, returning None, so is_entry_valid takes the
global-policy branch even when the host reports a last-modified date
(2012-06-15) later than the entry creation time (2012-01-01) and the
claim demands rejection. -/
theorem last_modified_signal_discarded :
    last_modified_from_args ⟨some (fun _ => .date ⟨2012, 6, 15⟩)⟩ [] = .ok none
    ∧ is_entry_valid ⟨none, ⟨2012, 6, 20, 12, 0, 0⟩, ⟨2012, 6, 20, 0, 0, 0⟩⟩
        ⟨some (fun _ => .date ⟨2012, 6, 15⟩)⟩
        ⟨.int 0, .dt ⟨2012, 1, 1, 1, 1, 1⟩, none⟩ [] = .ok true :=
  ⟨rfl, rfl⟩

/-- Claim C2 counterexample: the bare-date normalization is not the
start of the day plus one second.  A bare-date entry of 2012-03-04
validates under the session policy with a session start of 00:30,
although the claimed normalization 00:00:01 lies before that session
start and would have to be rejected. -/
theorem bare_date_normalization_counterexample :
    dateToDatetime111 ⟨2012, 3, 4⟩ ≠ ⟨2012, 3, 4, 0, 0, 1⟩
    ∧ is_entry_valid ⟨some "session", ⟨2012, 3, 4, 12, 0, 0⟩, ⟨2012, 3, 4, 0, 30, 0⟩⟩
        ⟨some (fun _ => .other)⟩ ⟨.int 0, .date ⟨2012, 3, 4⟩, none⟩ [] = .ok true
    ∧ dtLe ⟨2012, 3, 4, 0, 30, 0⟩ ⟨2012, 3, 4, 0, 0, 1⟩ = false :=
  ⟨by decide, rfl, by decide⟩

/-- Claim C2 as amended: a bare-date createdAt is normalized, before
any comparison, to 01:01:01 of that day (datetime(year, month, day,
1, 1, 1)): validation of the bare-date entry coincides with validation
of the entry carrying that datetime. -/
theorem bare_date_normalized_to_010101 (env : Env) (host : Host)
    (value : PyVal) (d : Date) (expires : Option Datetime) (args : List PyVal) :
    is_entry_valid env host ⟨value, .date d, expires⟩ args
      = is_entry_valid env host ⟨value, .dt ⟨d.year, d.month, d.day, 1, 1, 1⟩, expires⟩ args :=
  rfl

/-- Claim C3: contrary to the claim, resolving the backend for a host
instance with no storage-backend attribute does not attach a volatile
backend: the source calls the builtin hasattr with a single argument,
which raises TypeError.  Only the host-provided branch succeeds. -/
theorem get_cache_store_raises_typeerror :
    get_cache_store ⟨false⟩ = .error .typeError
    ∧ get_cache_store ⟨true⟩ = .ok .hostProvided :=
  ⟨rfl, rfl⟩

/-- Claim C4: contrary to the claim, the volatile backend does not
implement the mapping interface: neither DictStore nor Store nor
UserDict.DictMixin defines the four primitive mapping methods, so
setting, getting, deleting and listing keys all fail with TypeError
instead of behaving like the persistent variant. -/
theorem dictstore_mapping_methods_missing :
    dictStoreHasMethod "__setitem__" = false
    ∧ dictStoreHasMethod "__getitem__" = false
    ∧ dictStoreHasMethod "__delitem__" = false
    ∧ dictStoreHasMethod "keys" = false
    ∧ dictStore_setitem [] ['k'] ⟨.int 1, .other, none⟩ = .error .typeError
    ∧ dictStore_getitem [] ['k'] = .error .typeError := by
  refine ⟨by decide, by decide, by decide, by decide, rfl, rfl⟩

/-- Claim C6 counterexample: with an unset policy and a recognized
createdAt timestamp the entry is not always accepted: a pre-epoch
timestamp fails the min_timestamp floor check and is rejected. -/
theorem policy_fallthrough_counterexample :
    is_entry_valid ⟨none, ⟨2020, 1, 1, 0, 0, 0⟩, ⟨2020, 1, 1, 0, 0, 0⟩⟩
      ⟨some (fun _ => .other)⟩ ⟨.int 0, .dt ⟨1900, 1, 1, 0, 0, 0⟩, none⟩ []
      = .ok false :=
  rfl

/-- Claim C6 as amended: for an entry whose createdAt is a recognized
timestamp not before the min_timestamp floor, when the host exposes a
last_modified method (whose value the wrapper discards, so no signal is
available) and the policy is any value other than always, session,
daily or weekly (unset included), is_entry_valid accepts the entry
without comparing it against any policy threshold. -/
theorem policy_fallthrough_amended (env : Env) (host : Host)
    (e : cache_entry) (args : List PyVal) (m : Datetime)
    (lmf : List PyVal → PyTime)
    (hm : e.mtime = .dt m)
    (hlm : host.lastModified = some lmf)
    (hfloor : dtLt m min_timestamp = false)
    (h1 : env.policy ≠ some "always") (h2 : env.policy ≠ some "session")
    (h3 : env.policy ≠ some "daily") (h4 : env.policy ≠ some "weekly") :
    is_entry_valid env host e args = .ok true := by
  simp [is_entry_valid, hm, is_entry_valid_from, hfloor,
    last_modified_from_args, hlm, h1, h2, h3, h4, pyNoneLe]

/-- Witness for the amended claim C6: a 2020 entry under the
unrecognized policy value monthly is accepted. -/
theorem policy_fallthrough_amended_witness :
    ((⟨.int 3, .dt ⟨2020, 5, 5, 10, 0, 0⟩, none⟩ : cache_entry).mtime
        = .dt ⟨2020, 5, 5, 10, 0, 0⟩)
    ∧ dtLt ⟨2020, 5, 5, 10, 0, 0⟩ min_timestamp = false
    ∧ (some "monthly" : Option String) ≠ some "always"
    ∧ is_entry_valid ⟨some "monthly", ⟨2020, 6, 1, 0, 0, 0⟩, ⟨2020, 6, 1, 0, 0, 0⟩⟩
        ⟨some (fun _ => .other)⟩ ⟨.int 3, .dt ⟨2020, 5, 5, 10, 0, 0⟩, none⟩ []
        = .ok true :=
  ⟨rfl, by decide, by decide,
   policy_fallthrough_amended ⟨some "monthly", ⟨2020, 6, 1, 0, 0, 0⟩, ⟨2020, 6, 1, 0, 0, 0⟩⟩
     ⟨some (fun _ => .other)⟩ ⟨.int 3, .dt ⟨2020, 5, 5, 10, 0, 0⟩, none⟩ []
     ⟨2020, 5, 5, 10, 0, 0⟩ (fun _ => .other) rfl rfl (by decide)
     (by decide) (by decide) (by decide) (by decide)⟩

/-- Claim C8: when the real path of the configured cache directory
differs from the real path of the compiled-in default, clear_cache
raises the configuration error and deletes no file; files are removed
only on the equal-path branch. -/
theorem clear_cache_guard (e : FsEnv)
    (h : e.realpath e.cachePath ≠ e.realpath e.keggDir) :
    clear_cache e = (.error (.exception nonDefaultCachePathMsg), e.files) := by
  simp [clear_cache, h]

/-- Witness for claim C8: a configured path a distinct from the default
b under the identity realpath keeps every file and reports the
error. -/
theorem clear_cache_guard_witness :
    ((fun s : PyStr => s) ['a'] ≠ (fun s : PyStr => s) ['b'])
    ∧ clear_cache ⟨['a'], ['b'], fun s => s, [['x', '.', 'p', 'n', 'g']]⟩
      = (.error (.exception nonDefaultCachePathMsg), [['x', '.', 'p', 'n', 'g']]) :=
  ⟨by decide,
   clear_cache_guard ⟨['a'], ['b'], fun s => s, [['x', '.', 'p', 'n', 'g']]⟩ (by decide)⟩

end KeggCaching
